import Mathlib

/-!
Verification of the job-partitioning and orchestration core of the
Render Commander background-render dispatcher.

The definitions below are shallow embeddings of the Python source:
  * `render_commander/operators/render/background_render.py`
  * `render_commander/operators/render/generate_scripts.py`
  * `render_commander/utils/helpers.py`
Python machine integers are modelled as `Nat`/`Int` (no overflow concerns
arise in the source), Python lists as `List`, and the float arithmetic of
the resolution scaling as exact rationals with an explicit model of
Python's banker's rounding.
-/

namespace RenderCommander

/-! ### Frame-list SPLIT partition

Embeds the `device_ranges` construction of
`_execute_frame_list_parallel_render` (background_render.py lines 914-938):

    total_frames = len(frames)
    num_devices = min(len(selected_devices), total_frames)
    frames_per_device = total_frames // num_devices
    remainder = total_frames % num_devices
    device_ranges = []
    current_start = 0
    for i in range(num_devices):
        current_end = current_start + frames_per_device
        if i < remainder:
            current_end += 1
        device_ranges.append(frames[current_start:current_end])
        current_start = current_end

The loop is written as structural recursion on the number of remaining
iterations; `frames[a:b]` is `(frames.drop a).take (b - a)`.
-/

/-- One pass of the `for i in range(num_devices)` loop: `i` is the loop
index, `cs` the running `current_start` cursor, and the last argument the
number of iterations still to perform. -/
def slicesLoop (frames : List Nat) (fpd rem : Nat) : Nat → Nat → Nat → List (List Nat)
  | _, _, 0 => []
  | i, cs, k + 1 =>
      ((frames.drop cs).take (fpd + if i < rem then 1 else 0)) ::
        slicesLoop frames fpd rem (i + 1) (cs + (fpd + if i < rem then 1 else 0)) k

/-- `device_ranges` of `_execute_frame_list_parallel_render`:
`selectedCount` is `len(selected_devices)`. -/
def frameListSplit (selectedCount : Nat) (frames : List Nat) : List (List Nat) :=
  let total := frames.length
  let numDevices := min selectedCount total
  slicesLoop frames (total / numDevices) (total % numDevices) 0 0 numDevices

/-- The total number of frames handed out by iterations `i, i+1, ..., i+k-1`
of the slicing loop (each gets `fpd`, plus one extra while the loop index is
below `rem`). -/
def sizesSum (fpd rem : Nat) : Nat → Nat → Nat
  | _, 0 => 0
  | i, k + 1 => (fpd + if i < rem then 1 else 0) + sizesSum fpd rem (i + 1) k

/-! ### Range FRAME_SPLIT partition

Embeds the `device_ranges` construction of
`_execute_sequence_parallel_render` (background_render.py lines 642-667):

    total_frames = (frame_end - frame_start) // frame_step + 1
    num_devices = min(len(selected_devices), total_frames)
    frames_per_device = total_frames // num_devices
    remainder = total_frames % num_devices
    device_ranges = []
    current_start = frame_start
    for i in range(num_devices):
        current_end = current_start + (frames_per_device - 1) * frame_step
        if i < remainder:
            current_end += frame_step
        device_ranges.append((current_start, current_end))
        current_start = current_end + frame_step
-/

/-- One pass of the range-split loop; arguments as in `slicesLoop`.
`current_end` is written out twice in place of the Python local. -/
def rangeLoop (fpd rem st : Nat) : Nat → Nat → Nat → List (Nat × Nat)
  | _, _, 0 => []
  | i, cs, k + 1 =>
      (cs, cs + (fpd - 1) * st + (if i < rem then st else 0)) ::
        rangeLoop fpd rem st (i + 1)
          (cs + (fpd - 1) * st + (if i < rem then st else 0) + st) k

/-- `device_ranges` of `_execute_sequence_parallel_render` under
`FRAME_SPLIT`. -/
def seqSplit (selectedCount fs fe st : Nat) : List (Nat × Nat) :=
  let total := (fe - fs) / st + 1
  let n := min selectedCount total
  rangeLoop (total / n) (total % n) st 0 fs n

/-- The frames the host renderer visits for an inclusive animation range
`frame_start = fs`, `frame_end = fe`, `frame_step = st`:
`fs, fs + st, fs + 2*st, ...` while `≤ fe` (for `fs ≤ fe`, `st ≥ 1`). -/
def framesOfRange (fs fe st : Nat) : List Nat :=
  List.range' fs ((fe - fs) / st + 1) st

/-! ### C4: the frame-list launch loop

`_execute_frame_list_parallel_render` drives `process_next_device` as a
timer chain (lines 944-1125).  The iteration guard is

    if i >= len(selected_devices): return

while `device_ranges` only has `num_devices = min(len(selected_devices),
total_frames)` entries, and `dev_frames = device_ranges[i]` is evaluated
before the `if not dev_frames` skip check.
-/

/-- Outcome of a single `process_next_device` call in the frame-list
parallel render. -/
inductive LaunchStep where
  | done
  | indexError
  | skipped
  | launched (devFrames : List Nat)
  deriving DecidableEq

/-- One `process_next_device` call at loop index `i` (background_render.py
lines 944-980): return if `i >= len(selected_devices)`; read
`device_ranges[i]` (IndexError when out of range); skip when the slice is
empty; otherwise launch. -/
def frameListIteration (selectedCount : Nat) (deviceRanges : List (List Nat))
    (i : Nat) : LaunchStep :=
  if selectedCount ≤ i then .done
  else
    match deviceRanges.get? i with
    | none => .indexError
    | some fr => if fr = [] then .skipped else .launched fr

/-- The timer chain: after a launch at index `i` the next call is scheduled
only while `i < len(selected_devices) - 1`; a skip returns without
rescheduling.  Written structurally on the remaining budget
`r = selectedCount - i` (the chain never runs past `selectedCount`).
Returns the number of launched processes, or `none` once an iteration
raises `IndexError`. -/
def launchChainAux (selectedCount : Nat) (deviceRanges : List (List Nat)) :
    Nat → Nat → Option Nat
  | _, 0 => some 0
  | i, r + 1 =>
      match frameListIteration selectedCount deviceRanges i with
      | .done => some 0
      | .indexError => none
      | .skipped => some 0
      | .launched _ =>
          if i + 1 < selectedCount then
            (launchChainAux selectedCount deviceRanges (i + 1) r).map (· + 1)
          else some 1

/-- The whole launch sequence of `_execute_frame_list_parallel_render` for
a given selected-device count and parsed frame list. -/
def frameListLaunchChain (selectedCount : Nat) (frames : List Nat) : Option Nat :=
  launchChainAux selectedCount (frameListSplit selectedCount frames) 0 selectedCount

/-! ### C6: frame-settings validation

Embeds `validate_frame_range` inside `_get_frame_settings`
(background_render.py lines 1135-1144):

    def validate_frame_range(start, end, step):
        if start >= end:
            if start == end:
                self.report({"ERROR"}, "Frame Start must be less than Frame End.")
                prefs.launch_mode = MODE_SINGLE
                return None
            raise ValueError("Frame start must be less than frame end for animation.")
        if step <= 0:
            raise ValueError("Frame step must be a positive integer.")
        return (start, end, step)

and the caller's `validate_frame_range(...) or {"CANCELLED"}` /
`except ValueError` handling in `_execute_sequence_parallel_render`
(lines 623-631).
-/

/-- The three launch modes of the `launch_mode` enum preference (their
string values live in the repository's `utils/constants.py`, not needed
here). -/
inductive LaunchMode where
  | SINGLE_FRAME
  | FRAME_SEQUENCE
  | FRAME_LIST
  deriving DecidableEq

/-- `validate_frame_range` result: `ok` returns the tuple unchanged;
`fallbackCancel` is the `start == end` branch (error report, launch mode
switched to single, `None` returned, which the caller turns into
`{"CANCELLED"}`); `error` is a raised `ValueError`. -/
inductive FrameSettingsResult where
  | ok (s e st : Int)
  | fallbackCancel
  | error
  deriving DecidableEq

def validateFrameRange (s e st : Int) : FrameSettingsResult :=
  if s ≥ e then
    if s = e then .fallbackCancel else .error
  else if st ≤ 0 then .error
  else .ok s e st

/-- `prefs.launch_mode` after `validate_frame_range` ran: only the
`start == end` branch mutates it, to `MODE_SINGLE`. -/
def launchModeAfterValidate (mode : LaunchMode) (s e st : Int) : LaunchMode :=
  match validateFrameRange s e st with
  | .fallbackCancel => .SINGLE_FRAME
  | _ => mode

/-- How `_execute_sequence_parallel_render` reacts to the frame-settings
result: an `ok` range proceeds to partitioning/scripts/launch; the raised
`ValueError` — and equally the returned `{"CANCELLED"}` set, whose
3-tuple unpacking at the call site raises `ValueError`, caught by the same
handler — cancels the render.  The `stillRender` outcome is the behaviour
the specification claims for `start == end`; no code path of this
invocation produces it. -/
inductive SeqRenderOutcome where
  | proceeds (s e st : Int)
  | cancelled
  | stillRender
  deriving DecidableEq

def seqParallelOutcome (s e st : Int) : SeqRenderOutcome :=
  match validateFrameRange s e st with
  | .ok a b c => .proceeds a b c
  | .fallbackCancel => .cancelled
  | .error => .cancelled

/-! ### Script generation

Shallow embedding of the command programs written by `_generate_base_script`
(generate_scripts.py lines 17-71) and the two `process_next_device`
closures (background_render.py lines 672-875 and 944-1125).  Script lines
whose contents no claim refers to are abstracted to `ScriptLine.other`;
lines claims refer to keep their data. -/

/-- One line (or contiguous block) of a generated worker script. -/
inductive ScriptLine where
  | other
  | setFrame (f : Nat)
  | setFrameRange (fs fe st : Nat)
  | setResolution (x y : Int)
  | setResolutionPercentage (p : Int)
  | setDevices (ids : List String)
  | setOverwrite (b : Bool)
  | setPlaceholder (b : Bool)
  | setFilepath
  | setThreads (n : Nat)
  | preventSleepBlock
  | renderAnimation
  | renderStill (writeStill : Bool)
  | notificationBlock
  | createMarker (name : String)
  | waitForAllMarkers (renderId : String) (numProcesses pollSeconds : Nat)
  | shutdownBlock
  | removeTempScript
  deriving DecidableEq

/-- `resolution_mode` enum of the override settings. -/
inductive ResolutionMode where
  | CUSTOM
  | SET_WIDTH
  | SET_HEIGHT
  deriving DecidableEq

/-- The override-settings fields script generation reads
(properties/override_settings.py).  `auto_width`/`auto_height` stand for
the host-computed `calculate_auto_width/height(context)` values;
`render_scale_is_custom` is `render_scale == "CUSTOM"` and `render_scale`
the numeric value of the enum string otherwise (exact rational in place
of the Python float); `camera_shift_nonzero` is
`camera_shift_x != 0.0 or camera_shift_y != 0.0`. -/
structure OverrideSettings where
  format_override : Bool
  resolution_override : Bool
  resolution_mode : ResolutionMode
  resolution_x : Nat
  resolution_y : Nat
  auto_width : Nat
  auto_height : Nat
  render_scale_is_custom : Bool
  render_scale : ℚ
  custom_render_scale : Nat
  camera_shift_override : Bool
  camera_shift_nonzero : Bool
  use_overscan : Bool
  motion_blur_override : Bool
  file_format_override : Bool
  compositor_override : Bool
  deriving DecidableEq

/-- Python's `round` on an exact rational value: round-half-to-even
(banker's rounding). -/
def pyRound (x : ℚ) : Int :=
  if x - ⌊x⌋ < 1 / 2 then ⌊x⌋
  else if 1 / 2 < x - ⌊x⌋ then ⌊x⌋ + 1
  else if ⌊x⌋ % 2 = 0 then ⌊x⌋ else ⌊x⌋ + 1

/-- `int(round(base * scale / 2) * 2)` of `_apply_resolution_settings`
(generate_scripts.py lines 139-140). -/
def scaledRes (base : Nat) (scale : ℚ) : Int :=
  pyRound (base * scale / 2) * 2

/-- `base_x` selection of `_apply_resolution_settings` (lines 123-132). -/
def baseResX (o : OverrideSettings) : Nat :=
  match o.resolution_mode with
  | .SET_WIDTH => o.resolution_x
  | .SET_HEIGHT => o.auto_width
  | .CUSTOM => o.resolution_x

/-- `base_y` selection of `_apply_resolution_settings` (lines 123-132). -/
def baseResY (o : OverrideSettings) : Nat :=
  match o.resolution_mode with
  | .SET_WIDTH => o.auto_height
  | .SET_HEIGHT => o.resolution_y
  | .CUSTOM => o.resolution_y

/-- `scale` selection of `_apply_resolution_settings` (lines 134-137). -/
def effScale (o : OverrideSettings) : ℚ :=
  if ¬o.render_scale_is_custom then o.render_scale
  else (o.custom_render_scale : ℚ) / 100

/-- `_apply_resolution_settings` (generate_scripts.py lines 119-238):
resolution/scale lines, then the camera-shift block and the overscan
block (both abstracted, no claim touches their contents).  In the
percentage branch `int(float(render_scale) * 100)` truncates; the scale
values are non-negative so this is the floor. -/
def applyResolutionSettings (o : OverrideSettings) : List ScriptLine :=
  if o.format_override then
    (if o.resolution_override then
        [ScriptLine.setResolution (scaledRes (baseResX o) (effScale o))
            (scaledRes (baseResY o) (effScale o)),
          ScriptLine.setResolutionPercentage 100]
      else
        [ScriptLine.setResolutionPercentage
            (if ¬o.render_scale_is_custom then ⌊o.render_scale * 100⌋
              else (o.custom_render_scale : Int))]) ++
    (if o.camera_shift_override && o.camera_shift_nonzero
      then [ScriptLine.other] else []) ++
    (if o.use_overscan then [ScriptLine.other] else [])
  else []

/-- `_generate_base_script` (generate_scripts.py lines 17-71) for the
Cycles engine: header/start message, render-time tracking, motion blur,
frame settings, resolution, output format, compositing, Cycles
device-selection block — in this order. -/
def generateBaseScript (o : OverrideSettings) (selectedIds : List String)
    (isAnimation : Bool) (fs fe st : Nat) : List ScriptLine :=
  [ScriptLine.other] ++
  [ScriptLine.other] ++
  (if o.motion_blur_override then [ScriptLine.other] else []) ++
  (if isAnimation then [ScriptLine.setFrameRange fs fe st]
    else [ScriptLine.setFrame fs]) ++
  applyResolutionSettings o ++
  (if o.file_format_override then [ScriptLine.other] else []) ++
  (if o.compositor_override then [ScriptLine.other] else []) ++
  [ScriptLine.setDevices selectedIds]

/-- The preference flags `process_next_device` reads. -/
structure SyncPrefs where
  set_system_power : Bool
  prevent_sleep : Bool
  prevent_monitor_off : Bool
  shutdown_after_render : Bool
  send_desktop_notifications : Bool
  cpu_threads_limit : Nat
  any_cpu_device_used : Bool
  write_still : Bool
  deriving DecidableEq

/-- The `frame_allocation` enum (preferences.py lines 491-508). -/
inductive FrameAllocation where
  | SEQUENTIAL
  | FRAME_SPLIT
  deriving DecidableEq

/-- The marker filename `f'{render_id}_process_{process_num}'`
(`_add_create_temp_files_script`, line 1199). -/
def markerName (renderId : String) (i : Nat) : String :=
  renderId ++ "_process_" ++ toString i

/-- The guard deciding whether completion markers and the barrier are
emitted (background_render.py lines 814-820 and 1064-1070). -/
def syncRequired (p : SyncPrefs) : Bool :=
  (p.set_system_power &&
    ((p.prevent_sleep || p.prevent_monitor_off) || p.shutdown_after_render)) ||
  p.send_desktop_notifications

/-- The marker/barrier/shutdown tail appended to every worker script when
synchronization is required (identical blocks at lines 814-834 and
1064-1084): every process creates its own marker; process 0 additionally
waits for all `numProcesses` markers polling every 2 seconds
(`time.sleep(2)`, line 1227) and then, if configured, shuts the system
down. -/
def syncTail (p : SyncPrefs) (renderId : String) (numProcesses i : Nat) :
    List ScriptLine :=
  if syncRequired p then
    [ScriptLine.createMarker (markerName renderId i)] ++
    (if i = 0 then
        [ScriptLine.waitForAllMarkers renderId numProcesses 2] ++
        (if p.set_system_power && p.shutdown_after_render
          then [ScriptLine.shutdownBlock] else [])
      else [])
  else []

/-- The part of the worker script built by `process_next_device` of
`_execute_sequence_parallel_render` (lines 672-875) that precedes the sync
tail: the base script over this worker's range (`device_ranges[i]` under
`FRAME_SPLIT`, the full input range under `SEQUENTIAL`), the
overwrite/placeholder pair of the allocation mode, the output path, the
optional thread limit, the worker-0 sleep-prevention block, the animation
render call, and the worker-0 notification block. -/
def seqWorkerStem (p : SyncPrefs) (o : OverrideSettings)
    (alloc : FrameAllocation) (deviceIds : List String)
    (devRanges : List (Nat × Nat)) (fs fe st : Nat) (i : Nat) :
    List ScriptLine :=
  (match alloc with
    | .FRAME_SPLIT =>
        generateBaseScript o deviceIds true (devRanges.getD i (0, 0)).1
            (devRanges.getD i (0, 0)).2 st ++
          [ScriptLine.setOverwrite true, ScriptLine.setPlaceholder false] ++
          [ScriptLine.setFilepath]
    | .SEQUENTIAL =>
        generateBaseScript o deviceIds true fs fe st ++
          [ScriptLine.setOverwrite false, ScriptLine.setPlaceholder true] ++
          [ScriptLine.setFilepath]) ++
  (if p.any_cpu_device_used && !(p.cpu_threads_limit = 0)
    then [ScriptLine.setThreads p.cpu_threads_limit] else []) ++
  (if i = 0 && p.set_system_power && (p.prevent_sleep || p.prevent_monitor_off)
    then [ScriptLine.preventSleepBlock] else []) ++
  [ScriptLine.renderAnimation] ++
  (if i = 0 && p.send_desktop_notifications
    then [ScriptLine.notificationBlock] else [])

/-- The full worker script of the sequence-parallel render for worker `i`
of `numDevices`: stem, sync tail, temp-script cleanup. -/
def seqWorkerScript (p : SyncPrefs) (o : OverrideSettings)
    (alloc : FrameAllocation) (renderId : String) (deviceIds : List String)
    (devRanges : List (Nat × Nat)) (fs fe st : Nat) (numDevices i : Nat) :
    List ScriptLine :=
  seqWorkerStem p o alloc deviceIds devRanges fs fe st i ++
  syncTail p renderId numDevices i ++
  [ScriptLine.removeTempScript]

/-- The worker script built by `process_next_device` of
`_execute_frame_list_parallel_render` (lines 944-1125) for worker `i`
with frame slice `devFrames`: base script (still mode, positioned at
`dev_frames[0]`, `dev_frames[-1]` and step 1 recorded for logging), the
optional thread limit, the worker-0 sleep-prevention block, one
frame-set/output-path/still-render triple per frame, the worker-0
notification block, and the total-render-time print block. -/
def frameListWorkerStem (p : SyncPrefs) (o : OverrideSettings)
    (deviceIds : List String) (devFrames : List Nat) (i : Nat) :
    List ScriptLine :=
  generateBaseScript o deviceIds false (devFrames.getD 0 0)
      ((devFrames.getLast?).getD 0) 1 ++
  (if p.any_cpu_device_used && !(p.cpu_threads_limit = 0)
    then [ScriptLine.setThreads p.cpu_threads_limit] else []) ++
  (if i = 0 && p.set_system_power && (p.prevent_sleep || p.prevent_monitor_off)
    then [ScriptLine.preventSleepBlock] else []) ++
  (devFrames.flatMap (fun f =>
    [ScriptLine.setFrame f, ScriptLine.setFilepath,
      ScriptLine.renderStill p.write_still])) ++
  (if i = 0 && p.send_desktop_notifications
    then [ScriptLine.notificationBlock] else []) ++
  [ScriptLine.other]

/-- The full worker script of the frame-list parallel render for worker
`i` of `numDevices`: stem, sync tail, temp-script cleanup. -/
def frameListWorkerScript (p : SyncPrefs) (o : OverrideSettings)
    (renderId : String) (deviceIds : List String) (devFrames : List Nat)
    (numDevices i : Nat) : List ScriptLine :=
  frameListWorkerStem p o deviceIds devFrames i ++
  syncTail p renderId numDevices i ++
  [ScriptLine.removeTempScript]

/-- The `frame_start/frame_end/frame_step` tuples a script sets
(`setFrameRange` lines, in order). -/
def frameRangeLines (s : List ScriptLine) : List (Nat × Nat × Nat) :=
  s.filterMap fun l =>
    match l with
    | .setFrameRange a b c => some (a, b, c)
    | _ => none

/-- The `use_overwrite` values a script sets, in order. -/
def overwriteLines (s : List ScriptLine) : List Bool :=
  s.filterMap fun l =>
    match l with
    | .setOverwrite b => some b
    | _ => none

/-- The `use_placeholder` values a script sets, in order. -/
def placeholderLines (s : List ScriptLine) : List Bool :=
  s.filterMap fun l =>
    match l with
    | .setPlaceholder b => some b
    | _ => none

/-- The completion-marker filenames a script creates, in order. -/
def markerLines (s : List ScriptLine) : List String :=
  s.filterMap fun l =>
    match l with
    | .createMarker nm => some nm
    | _ => none

/-- The barrier waits a script contains
(render id, marker count, poll seconds), in order. -/
def waitLines (s : List ScriptLine) : List (String × Nat × Nat) :=
  s.filterMap fun l =>
    match l with
    | .waitForAllMarkers r n t => some (r, n, t)
    | _ => none

/-- One poll of the generated barrier loop
(`_add_wait_for_all_processes`, lines 1218-1227): `all_done` is true iff
the marker file of every process `0 ≤ i < numProcesses` exists. -/
def checkAllDone (present : String → Bool) (renderId : String)
    (numProcesses : Nat) : Bool :=
  (List.range numProcesses).all fun i => present (markerName renderId i)

/-- The marker cleanup after the barrier (lines 1231-1234): each
`{render_id}_process_{i}` file is deleted if it exists. -/
def deleteMarkers (present : String → Bool) (renderId : String)
    (numProcesses : Nat) : String → Bool :=
  fun nm =>
    if (List.range numProcesses).any (fun i => markerName renderId i = nm)
    then false else present nm

/-! ### Device selection (C8)

Embeds `get_devices_for_display` (preferences.py lines 333-356) and the
device-resolution prefix of `_execute_cycles_render`
(background_render.py lines 313-341) with its fallback helpers
(lines 413-434). -/

/-- One entry of `prefs.devices`. -/
structure Device where
  id : String
  type : String
  use : Bool
  deriving DecidableEq

/-- The preference state `_execute_cycles_render` reads. -/
structure CyclesPrefs where
  compute_device_type : String
  devices : List Device
  multiple_backends : Bool
  device_parallel : Bool
  launch_mode : LaunchMode
  combine_cpu_with_gpus : Bool
  deriving DecidableEq

/-- `get_devices_for_display` (preferences.py lines 333-356). -/
def getDevicesForDisplay (p : CyclesPrefs) : List Device :=
  if p.multiple_backends && p.device_parallel &&
      !(p.launch_mode = LaunchMode.SINGLE_FRAME) then
    p.devices
  else
    (p.devices.filter fun d =>
        d.type = p.compute_device_type && !(d.type = "CPU")) ++
    (if !(p.compute_device_type = "CPU") then
        p.devices.filter fun d =>
          d.type = "CPU" &&
          !((p.devices.filter fun e =>
              e.type = p.compute_device_type && !(e.type = "CPU")).any
            fun e => e.id = d.id)
      else
        p.devices.filter fun d => d.type = "CPU")

/-- `for device in prefs.devices: if device.type == "CPU":
device.use = True` (lines 415-417 and 429-431). -/
def enableCpuDevices (ds : List Device) : List Device :=
  ds.map fun d => if d.type = "CPU" then { d with use := true } else d

/-- Preference-level effect of `_handle_cpu_fallback` (lines 413-423). -/
def handleCpuFallback (p : CyclesPrefs) : CyclesPrefs :=
  { p with devices := enableCpuDevices p.devices,
           compute_device_type := "NONE" }

/-- Preference-level effect of `_handle_no_devices_selected`
(lines 425-434).  The method also reassigns its
`devices_to_display`/`selected_devices` parameters, but those rebindings
are local to the helper and never reach the caller. -/
def handleNoDevicesSelected (p : CyclesPrefs) : CyclesPrefs :=
  { p with compute_device_type := "NONE",
           devices := enableCpuDevices p.devices }

/-- The device-resolution prefix of `_execute_cycles_render`
(lines 313-341): the `selected_ids` handed to script generation and the
preference state after any fallback.  In the backend-`NONE` branch the
caller refreshes `selected_devices` from the updated preferences
(lines 333-335); in the empty-selection branch it does not (line 339), so
`selected_ids` is computed from the stale (empty) list. -/
def executeCyclesDeviceSelection (p : CyclesPrefs) :
    List String × CyclesPrefs :=
  let display := getDevicesForDisplay p
  let selected :=
    if (p.launch_mode = LaunchMode.FRAME_SEQUENCE && p.device_parallel) ||
        (p.launch_mode = LaunchMode.FRAME_LIST && p.device_parallel) then
      display.filter fun d =>
        d.use && (!p.combine_cpu_with_gpus || !(d.type = "CPU"))
    else
      display.filter fun d => d.use
  if p.compute_device_type = "NONE" then
    let p2 := handleCpuFallback p
    (((getDevicesForDisplay p2).filter fun d => d.use).map fun d => d.id, p2)
  else if selected.isEmpty then
    (selected.map fun d => d.id, handleNoDevicesSelected p)
  else
    (selected.map fun d => d.id, p)

/-- The device-enabling block of the generated Cycles script
(`_apply_cycles_settings`, generate_scripts.py lines 317-318):
`device.use = device.id in selected_ids`. -/
def applyDeviceSelection (selectedIds : List String) (ds : List Device) :
    List Device :=
  ds.map fun d => { d with use := selectedIds.contains d.id }

/-- Concrete preferences for the C8 failing run: a CUDA backend is
configured, no device is selected, single-frame mode. -/
def c8Prefs : CyclesPrefs :=
  { compute_device_type := "CUDA"
    devices := [⟨"cuda0", "CUDA", false⟩, ⟨"cpu0", "CPU", false⟩]
    multiple_backends := false
    device_parallel := false
    launch_mode := LaunchMode.SINGLE_FRAME
    combine_cpu_with_gpus := true }

/-! ### C10: frame-string parsing and formatting

Embeds `parse_frame_string` and `format_frame_range`
(utils/helpers.py lines 47-87):

    def parse_frame_string(frame_str):
        frames = set()
        tokens = re.findall(r"\d+(?:-\d+)?", frame_str)
        for token in tokens:
            if "-" in token:
                start, end = map(int, token.split("-"))
                frames.update(range(start, end + 1))
            else:
                frames.add(int(token))
        return sorted(frames)

The regex scan (a maximal digit run, optionally extended by a `-` and a
second digit run; everything else is a separator) is implemented as a
character-level state machine, accumulating the decimal value of each
digit run as Python's `int` would. -/

/-- The decimal digit character for `d` (`0 ≤ d ≤ 9`). -/
def digitChar (d : Nat) : Char :=
  Char.ofNat (48 + d)

/-- Decimal rendering of `n`, most significant digit first (the f-string
formatting used by `format_frame_range`); the first argument is fuel,
`n` itself always suffices. -/
def natToDigitsAux : Nat → Nat → List Char → List Char
  | 0, n, acc => digitChar (n % 10) :: acc
  | fuel + 1, n, acc =>
      if n < 10 then digitChar n :: acc
      else natToDigitsAux fuel (n / 10) (digitChar (n % 10) :: acc)

def natToDigits (n : Nat) : List Char :=
  natToDigitsAux n n []

/-- The decimal value of a digit run, folded left onto an accumulator the
way the scanner (and Python's `int`) reads it. -/
def digitsVal (v : Nat) (ds : List Char) : Nat :=
  ds.foldl (fun a c => a * 10 + (c.toNat - 48)) v

/-- Scanner state: outside a token / inside the first number / just after
the `-` of a candidate range / inside the second number. -/
inductive ScanState where
  | idle
  | num (a : Nat)
  | dash (a : Nat)
  | num2 (a b : Nat)
  deriving DecidableEq

/-- Feeding one digit `d` into the scanner state. -/
def feedDigit : ScanState → Nat → ScanState
  | .idle, d => .num d
  | .num a, d => .num (a * 10 + d)
  | .dash a, d => .num2 a d
  | .num2 a b, d => .num2 a (b * 10 + d)

/-- The token pending in a scanner state (emitted at a separator or at the
end of the input). -/
def flushToken : ScanState → List (Nat × Option Nat)
  | .idle => []
  | .num a => [(a, none)]
  | .dash a => [(a, none)]
  | .num2 a b => [(a, some b)]

/-- The token scan `re.findall(r"\d+(?:-\d+)?", s)` with each token
already converted by `int`: a token is a maximal digit run (value `a`),
optionally continued by `-` and a second digit run (value `b`). -/
def scanAux : ScanState → List Char → List (Nat × Option Nat)
  | st, [] => flushToken st
  | st, c :: cs =>
      if c.isDigit then scanAux (feedDigit st (c.toNat - 48)) cs
      else if c = '-' then
        match st with
        | ScanState.num a => scanAux (ScanState.dash a) cs
        | st' => flushToken st' ++ scanAux ScanState.idle cs
      else flushToken st ++ scanAux ScanState.idle cs

/-- The frames contributed by one token: `int(token)` alone, or
`range(start, end + 1)` for a `start-end` token. -/
def expandToken : Nat × Option Nat → List Nat
  | (a, none) => [a]
  | (a, some b) => List.range' a (b + 1 - a)

/-- Python's `sorted(set(l))` for a list of naturals: remove duplicates,
sort ascending (insertion sort keeps the definition kernel-computable). -/
def pySortedSet (l : List Nat) : List Nat :=
  (l.dedup).insertionSort (· ≤ ·)

/-- `parse_frame_string` over the character list of the input string. -/
def parse_frame_string (s : List Char) : List Nat :=
  pySortedSet ((scanAux ScanState.idle s).flatMap expandToken)

/-- The consecutive-run grouping loop of `format_frame_range`
(helpers.py lines 68-78): `start`/`e` are the current run's bounds. -/
def groupRangesAux (start e : Nat) : List Nat → List (Nat × Nat)
  | [] => [(start, e)]
  | n :: rest =>
      if n = e + 1 then groupRangesAux start n rest
      else (start, e) :: groupRangesAux n n rest

def groupRanges : List Nat → List (Nat × Nat)
  | [] => []
  | x :: xs => groupRangesAux x x xs

/-- One formatted run: `"a"` or `"a-b"` (helpers.py lines 80-85). -/
def fmtRange : Nat × Nat → List Char
  | (a, b) => if a = b then natToDigits a else natToDigits a ++ '-' :: natToDigits b

/-- `", ".join(parts)`. -/
def joinComma : List (List Char) → List Char
  | [] => []
  | [x] => x
  | x :: y :: t => x ++ ',' :: ' ' :: joinComma (y :: t)

/-- `format_frame_range` over character lists
(helpers.py lines 60-87). -/
def format_frame_range (l : List Nat) : List Char :=
  if l = [] then ['[', ']']
  else '[' :: joinComma ((groupRanges (pySortedSet l)).map fmtRange) ++ [']']

/-- The token a grouped run turns into when parsed back. -/
def toToken : Nat × Nat → Nat × Option Nat
  | (a, b) => if a = b then (a, none) else (a, some b)

/-! ### Theorems -/

theorem sizesSum_eq (fpd rem : Nat) : ∀ k i, sizesSum fpd rem i k = k * fpd + min k (rem - i) := by
  intro k
  induction k with
  | zero => intro i; simp [sizesSum]
  | succ k ih =>
      intro i
      rw [sizesSum, ih (i + 1), Nat.succ_mul]
      by_cases h : i < rem
      · have h1 : rem - i = (rem - (i + 1)) + 1 := by omega
        simp only [if_pos h]
        omega
      · have h1 : rem - i = 0 := by omega
        have h2 : rem - (i + 1) = 0 := by omega
        simp only [if_neg h, h1, h2]
        omega

theorem slicesLoop_join (frames : List Nat) (fpd rem : Nat) :
    ∀ k i cs, (slicesLoop frames fpd rem i cs k).flatten =
      (frames.drop cs).take (sizesSum fpd rem i k) := by
  intro k
  induction k with
  | zero => intro i cs; simp [slicesLoop, sizesSum]
  | succ k ih =>
      intro i cs
      rw [slicesLoop, sizesSum, List.flatten_cons, ih (i + 1)]
      rw [show frames.drop (cs + (fpd + if i < rem then 1 else 0)) =
            (frames.drop cs).drop (fpd + if i < rem then 1 else 0) by
          rw [List.drop_drop]]
      exact (List.take_add _ _ _).symm

theorem sizesSum_total (total n : Nat) (hn : 1 ≤ n) :
    sizesSum (total / n) (total % n) 0 n = total := by
  rw [sizesSum_eq]
  have hmod : total % n < n := Nat.mod_lt _ hn
  have : min n (total % n - 0) = total % n := by omega
  rw [this]
  have := Nat.div_add_mod total n
  omega

/-- **C1** core: the frame-list SPLIT partition concatenates back to the
original frame list. -/
theorem frameListSplit_join (frames : List Nat) (selectedCount : Nat)
    (hd : 1 ≤ selectedCount) (hF : frames ≠ []) :
    (frameListSplit selectedCount frames).flatten = frames := by
  unfold frameListSplit
  have hlen : 1 ≤ frames.length := by
    cases frames with
    | nil => exact absurd rfl hF
    | cons a l => simp
  have hn : 1 ≤ min selectedCount frames.length := le_min hd hlen
  have hle : min selectedCount frames.length ≤ frames.length := min_le_right _ _
  rw [slicesLoop_join, sizesSum_total _ _ hn]
  simp

theorem rangeLoop_flatten (rem : Nat) {fpd st : Nat} (hfpd : 1 ≤ fpd) (hst : 1 ≤ st) :
    ∀ k i cs, ((rangeLoop fpd rem st i cs k).map
        (fun p => framesOfRange p.1 p.2 st)).flatten =
      List.range' cs (sizesSum fpd rem i k) st := by
  intro k
  induction k with
  | zero => intro i cs; simp [rangeLoop, sizesSum]
  | succ k ih =>
      intro i cs
      rw [rangeLoop, sizesSum]
      set sz := fpd + if i < rem then 1 else 0 with hsz
      have hce : cs + (fpd - 1) * st + (if i < rem then st else 0) = cs + (sz - 1) * st := by
        have h2 : fpd = (fpd - 1) + 1 := by omega
        by_cases h : i < rem
        · simp only [hsz, if_pos h, Nat.add_sub_cancel]
          calc cs + (fpd - 1) * st + st = cs + ((fpd - 1) * st + st) := by omega
            _ = cs + ((fpd - 1) + 1) * st := by rw [Nat.succ_mul]
            _ = cs + fpd * st := by rw [← h2]
        · simp [hsz, if_neg h]
      simp only [List.map_cons, List.flatten_cons, hce]
      have hcount : (cs + (sz - 1) * st - cs) / st + 1 = sz := by
        rw [Nat.add_sub_cancel_left, Nat.mul_div_cancel _ hst]
        omega
      have hframes : framesOfRange cs (cs + (sz - 1) * st) st = List.range' cs sz st := by
        rw [framesOfRange, hcount]
      rw [hframes, ih (i + 1)]
      have hnext : cs + (sz - 1) * st + st = cs + st * sz := by
        have h3 : (sz - 1) * st + st = sz * st := by
          have hsz1 : 1 ≤ sz := by omega
          have h4 : sz = (sz - 1) + 1 := by omega
          conv_rhs => rw [h4]
          rw [Nat.succ_mul]
        rw [Nat.add_assoc, h3, Nat.mul_comm]
      rw [hnext, List.range'_append, Nat.add_comm]

/-- Chunk `j` of the range-split loop together with its frame count. -/
theorem rangeLoop_getD (rem : Nat) {fpd st : Nat} (hfpd : 1 ≤ fpd) (hst : 1 ≤ st) :
    ∀ k i cs j, j < k → ∃ a b, (rangeLoop fpd rem st i cs k).getD j (0, 0) = (a, b) ∧
      (b - a) / st + 1 = fpd + if i + j < rem then 1 else 0 := by
  intro k
  induction k with
  | zero => intro i cs j hj; omega
  | succ k ih =>
      intro i cs j hj
      rw [rangeLoop]
      cases j with
      | zero =>
          simp only [List.getD_cons_zero, Nat.add_zero]
          refine ⟨cs, cs + (fpd - 1) * st + (if i < rem then st else 0), rfl, ?_⟩
          by_cases h : i < rem
          · rw [if_pos h, if_pos h]
            have hh : cs + (fpd - 1) * st + st - cs = ((fpd - 1) + 1) * st := by
              rw [Nat.succ_mul]; omega
            rw [hh, Nat.mul_div_cancel _ hst]
            omega
          · rw [if_neg h, if_neg h]
            have hh : cs + (fpd - 1) * st + 0 - cs = (fpd - 1) * st := by omega
            rw [hh, Nat.mul_div_cancel _ hst]
            omega
      | succ j =>
          have hj' : j < k := by omega
          obtain ⟨a, b, hab, hcnt⟩ := ih (i + 1) _ j hj'
          refine ⟨a, b, ?_, ?_⟩
          · simpa using hab
          · rw [hcnt]
            have h5 : i + 1 + j = i + (j + 1) := by omega
            rw [h5]

/-- Chunk `j` of the frame-list split loop has exactly its scheduled length,
provided the frame list is long enough to serve all remaining iterations. -/
theorem slicesLoop_getD_length (frames : List Nat) (fpd rem : Nat) :
    ∀ k i cs j, j < k → cs + sizesSum fpd rem i k ≤ frames.length →
      ((slicesLoop frames fpd rem i cs k).getD j []).length =
        fpd + if i + j < rem then 1 else 0 := by
  intro k
  induction k with
  | zero => intro i cs j hj; omega
  | succ k ih =>
      intro i cs j hj htot
      rw [slicesLoop]
      rw [sizesSum] at htot
      cases j with
      | zero =>
          simp only [List.getD_cons_zero, List.length_take, List.length_drop,
            Nat.add_zero]
          have hrest : 0 ≤ sizesSum fpd rem (i + 1) k := Nat.zero_le _
          omega
      | succ j =>
          have hj' : j < k := by omega
          simp only [List.getD_cons_succ]
          have := ih (i + 1) (cs + (fpd + if i < rem then 1 else 0)) j hj' (by omega)
          rw [this]
          have : i + 1 + j = i + (j + 1) := by omega
          rw [this]

/-! ### Claims C1-C3 -/

/-- **C1**: for every non-empty frame list and at least one selected device,
the per-worker slices produced by the frame-list parallel render (SPLIT
policy, `_execute_frame_list_parallel_render`) concatenate back to exactly
the original frame list, so each frame of the input appears in exactly one
worker's slice — no duplicates, no omissions. -/
theorem c1_frameList_parallel_exact_coverage (frames : List Nat) (selectedCount : Nat)
    (hd : 1 ≤ selectedCount) (hF : frames ≠ []) :
    (frameListSplit selectedCount frames).flatten = frames ∧
    ∀ f, ((frameListSplit selectedCount frames).map (fun c => c.count f)).sum
      = frames.count f := by
  have h := frameListSplit_join frames selectedCount hd hF
  refine ⟨h, fun f => ?_⟩
  conv_rhs => rw [← h]
  rw [List.count_flatten]

theorem c1_frameList_parallel_exact_coverage_witness :
    (frameListSplit 3 [1, 2, 3, 4, 5, 6, 7]).flatten = [1, 2, 3, 4, 5, 6, 7] :=
  (c1_frameList_parallel_exact_coverage [1, 2, 3, 4, 5, 6, 7] 3
    (by decide) (by decide)).1

/-- **C2**: splitting a valid animation range (`start < end`, `step ≥ 1`)
under `FRAME_SPLIT` into `min(len(devices), totalFrames)` sub-ranges and
concatenating the workers' frames in process-index order reproduces the
frames of the original inclusive range with the original step — no gaps,
no overlaps; in particular `start=1, end=10, step=1` with 4 devices gives
sub-ranges `[1-3], [4-6], [7-8], [9-10]`. -/
theorem c2_range_split_reconstruction :
    (∀ (fs fe st d : Nat), fs < fe → 1 ≤ st → 1 ≤ d →
      ((seqSplit d fs fe st).map (fun p => framesOfRange p.1 p.2 st)).flatten =
        framesOfRange fs fe st)
    ∧ seqSplit 4 1 10 1 = [(1, 3), (4, 6), (7, 8), (9, 10)] := by
  constructor
  · intro fs fe st d hfe hst hd
    unfold seqSplit
    have hn : 1 ≤ min d ((fe - fs) / st + 1) := le_min hd (Nat.le_add_left 1 _)
    have hnle : min d ((fe - fs) / st + 1) ≤ (fe - fs) / st + 1 := min_le_right _ _
    have hfpd : 1 ≤ ((fe - fs) / st + 1) / min d ((fe - fs) / st + 1) :=
      (Nat.one_le_div_iff (by omega)).2 hnle
    rw [rangeLoop_flatten _ hfpd hst, sizesSum_total _ _ hn]
    rfl
  · decide

theorem c2_range_split_reconstruction_witness :
    ((seqSplit 4 1 10 1).map (fun p => framesOfRange p.1 p.2 1)).flatten =
      framesOfRange 1 10 1 :=
  c2_range_split_reconstruction.1 1 10 1 4 (by decide) (by decide) (by decide)

/-- **C3**: in both SPLIT partitions, worker `j` receives
`total / numWorkers` frames plus one extra exactly when
`j < total % numWorkers`, so any two workers' counts differ by at most one
and precisely the first `total mod numWorkers` workers (by process index)
get the larger count; e.g. `{1..7}` over 3 devices gives slices
`[1,2,3], [4,5], [6,7]` of sizes `[3,2,2]`. -/
theorem c3_fair_remainder_distribution :
    (∀ (frames : List Nat) (d : Nat), 1 ≤ d → frames ≠ [] →
      ∀ j, j < min d frames.length →
        ((frameListSplit d frames).getD j []).length =
          frames.length / min d frames.length +
            if j < frames.length % min d frames.length then 1 else 0)
    ∧ (∀ (frames : List Nat) (d j1 j2 : Nat), 1 ≤ d → frames ≠ [] →
        j1 < min d frames.length → j2 < min d frames.length →
        ((frameListSplit d frames).getD j1 []).length ≤
          ((frameListSplit d frames).getD j2 []).length + 1)
    ∧ (∀ (fs fe st d : Nat), 1 ≤ st → 1 ≤ d →
        ∀ j, j < min d ((fe - fs) / st + 1) →
          ∃ a b, (seqSplit d fs fe st).getD j (0, 0) = (a, b) ∧
            (framesOfRange a b st).length =
              ((fe - fs) / st + 1) / min d ((fe - fs) / st + 1) +
                if j < ((fe - fs) / st + 1) % min d ((fe - fs) / st + 1) then 1
                else 0)
    ∧ frameListSplit 3 [1, 2, 3, 4, 5, 6, 7] = [[1, 2, 3], [4, 5], [6, 7]] := by
  have part1 : ∀ (frames : List Nat) (d : Nat), 1 ≤ d → frames ≠ [] →
      ∀ j, j < min d frames.length →
        ((frameListSplit d frames).getD j []).length =
          frames.length / min d frames.length +
            if j < frames.length % min d frames.length then 1 else 0 := by
    intro frames d hd hF j hj
    have hlen : 1 ≤ frames.length := by
      cases frames with
      | nil => exact absurd rfl hF
      | cons a l => simp
    have hn : 1 ≤ min d frames.length := le_min hd hlen
    unfold frameListSplit
    have := slicesLoop_getD_length frames
      (frames.length / min d frames.length)
      (frames.length % min d frames.length)
      (min d frames.length) 0 0 j hj
      (by rw [sizesSum_total _ _ hn]; omega)
    rw [this, Nat.zero_add]
  refine ⟨part1, ?_, ?_, by decide⟩
  · intro frames d j1 j2 hd hF h1 h2
    rw [part1 frames d hd hF j1 h1, part1 frames d hd hF j2 h2]
    by_cases c1 : j1 < frames.length % min d frames.length <;>
      by_cases c2 : j2 < frames.length % min d frames.length <;>
      (simp [c1, c2]; try omega)
  · intro fs fe st d hst hd j hj
    have hn : 1 ≤ min d ((fe - fs) / st + 1) := le_min hd (Nat.le_add_left 1 _)
    have hnle : min d ((fe - fs) / st + 1) ≤ (fe - fs) / st + 1 := min_le_right _ _
    have hfpd : 1 ≤ ((fe - fs) / st + 1) / min d ((fe - fs) / st + 1) :=
      (Nat.one_le_div_iff (by omega)).2 hnle
    unfold seqSplit
    obtain ⟨a, b, hab, hcnt⟩ := rangeLoop_getD _ hfpd hst _ 0 fs j hj
    refine ⟨a, b, hab, ?_⟩
    rw [framesOfRange, List.length_range', hcnt, Nat.zero_add]

theorem c3_fair_remainder_distribution_witness :
    ((frameListSplit 3 [1, 2, 3, 4, 5, 6, 7]).getD 0 []).length =
      7 / min 3 7 + if 0 < 7 % min 3 7 then 1 else 0 :=
  c3_fair_remainder_distribution.1 [1, 2, 3, 4, 5, 6, 7] 3
    (by decide) (by decide) 0 (by decide)

/-- **C4** [failing run]: with 2 selected devices and a single-frame list
the partition correctly has `min(2, 1) = 1` chunk, but the per-device loop
continues to `i = 1` (its guard compares against `len(selected_devices)`,
not `numWorkers`) and reads `device_ranges[1]`, raising `IndexError`
instead of skipping the surplus device. -/
theorem c4_frameList_surplus_device_index_error :
    frameListLaunchChain 2 [1] = none ∧
    (frameListSplit 2 [1]).length = min 2 (List.length [1]) ∧
    frameListIteration 2 (frameListSplit 2 [1]) 1 = .indexError := by
  decide

/-- **C6** counterexample: for `frame_start = frame_end = 5` the
sequence-parallel invocation is cancelled (after reporting an error and
flipping the launch mode); no single-frame still render is performed in
that invocation, contrary to the claim's final clause. -/
theorem c6_counterexample_no_still_render_performed :
    seqParallelOutcome 5 5 1 = .cancelled ∧
    seqParallelOutcome 5 5 1 ≠ .stillRender ∧
    validateFrameRange 5 5 1 = .fallbackCancel := by
  decide

/-- **C6** (amended): every animation range with `start ≥ end` or
`step ≤ 0` fails frame-settings resolution before any script is produced
(the outcome is never `proceeds`), a returned range is never a clamped
one, and the `start == end` case reports the fallback: the launch mode is
switched to single-frame for subsequent invocations while the current
render is cancelled. -/
theorem c6_invalid_range_fails_before_scripts :
    (∀ s e st : Int, e ≤ s ∨ st ≤ 0 →
      (∀ a b c, validateFrameRange s e st ≠ .ok a b c) ∧
      (∀ a b c, seqParallelOutcome s e st ≠ .proceeds a b c) ∧
      seqParallelOutcome s e st = .cancelled ∧
      (s = e → validateFrameRange s e st = .fallbackCancel ∧
        ∀ m, launchModeAfterValidate m s e st = .SINGLE_FRAME)) ∧
    (∀ s e st a b c : Int, validateFrameRange s e st = .ok a b c →
      a = s ∧ b = e ∧ c = st) := by
  constructor
  · intro s e st h
    have hv : validateFrameRange s e st = .fallbackCancel ∨
        validateFrameRange s e st = .error := by
      unfold validateFrameRange
      rcases h with h | h
      · by_cases he : s = e
        · left; rw [if_pos (by omega), if_pos he]
        · right; rw [if_pos (by omega), if_neg he]
      · by_cases hge : s ≥ e
        · by_cases he : s = e
          · left; rw [if_pos hge, if_pos he]
          · right; rw [if_pos hge, if_neg he]
        · right; rw [if_neg hge, if_pos h]
    refine ⟨?_, ?_, ?_, ?_⟩
    · intro a b c hok
      rcases hv with hv | hv <;> rw [hok] at hv <;> exact FrameSettingsResult.noConfusion hv
    · intro a b c hp
      unfold seqParallelOutcome at hp
      rcases hv with hv | hv <;> rw [hv] at hp <;> exact SeqRenderOutcome.noConfusion hp
    · unfold seqParallelOutcome
      rcases hv with hv | hv <;> rw [hv]
    · intro he
      have hfb : validateFrameRange s e st = .fallbackCancel := by
        unfold validateFrameRange
        rw [if_pos (by omega), if_pos he]
      refine ⟨hfb, fun m => ?_⟩
      unfold launchModeAfterValidate
      rw [hfb]
  · intro s e st a b c hok
    unfold validateFrameRange at hok
    by_cases hge : s ≥ e
    · rw [if_pos hge] at hok
      by_cases he : s = e
      · rw [if_pos he] at hok; exact FrameSettingsResult.noConfusion hok
      · rw [if_neg he] at hok; exact FrameSettingsResult.noConfusion hok
    · rw [if_neg hge] at hok
      by_cases hstp : st ≤ 0
      · rw [if_pos hstp] at hok; exact FrameSettingsResult.noConfusion hok
      · rw [if_neg hstp] at hok
        injection hok with h1 h2 h3
        exact ⟨h1.symm, h2.symm, h3.symm⟩

theorem c6_invalid_range_fails_before_scripts_witness :
    seqParallelOutcome 5 5 1 = .cancelled ∧
    validateFrameRange 5 5 1 = .fallbackCancel ∧
    launchModeAfterValidate .FRAME_SEQUENCE 5 5 1 = .SINGLE_FRAME := by
  have h := (c6_invalid_range_fails_before_scripts.1 5 5 1 (Or.inl le_rfl))
  exact ⟨h.2.2.1, (h.2.2.2 rfl).1, (h.2.2.2 rfl).2 _⟩

/-- **C5**: under the `SEQUENTIAL` allocation policy every worker script
sets the frame range exactly once, to the identical full input range
(`frame_start..frame_end` with the original step), and sets
`use_overwrite = False`, `use_placeholder = True`; under `FRAME_SPLIT`
every worker script sets `use_overwrite = True`,
`use_placeholder = False`. -/
theorem c5_sequential_policy_replicates_range_and_flags :
    ∀ (p : SyncPrefs) (o : OverrideSettings) (rid : String)
      (ids : List String) (ranges : List (Nat × Nat)) (fs fe st n i : Nat),
      frameRangeLines
          (seqWorkerScript p o .SEQUENTIAL rid ids ranges fs fe st n i) =
        [(fs, fe, st)] ∧
      overwriteLines
          (seqWorkerScript p o .SEQUENTIAL rid ids ranges fs fe st n i) =
        [false] ∧
      placeholderLines
          (seqWorkerScript p o .SEQUENTIAL rid ids ranges fs fe st n i) =
        [true] ∧
      overwriteLines
          (seqWorkerScript p o .FRAME_SPLIT rid ids ranges fs fe st n i) =
        [true] ∧
      placeholderLines
          (seqWorkerScript p o .FRAME_SPLIT rid ids ranges fs fe st n i) =
        [false] := by
  intro p o rid ids ranges fs fe st n i
  refine ⟨?_, ?_, ?_, ?_, ?_⟩ <;>
    simp [seqWorkerScript, seqWorkerStem, generateBaseScript,
      applyResolutionSettings, syncTail, frameRangeLines, overwriteLines,
      placeholderLines, List.filterMap_append, apply_ite (List.filterMap _)]

theorem c5_sequential_policy_replicates_range_and_flags_witness :
    frameRangeLines
        (seqWorkerScript
          ⟨true, true, true, true, true, 0, false, false⟩
          ⟨false, false, .CUSTOM, 0, 0, 0, 0, false, 1, 100,
            false, false, false, false, false, false⟩
          .SEQUENTIAL "J" ["d0"] [(1, 10)] 1 10 1 2 0) =
      [(1, 10, 1)] :=
  (c5_sequential_policy_replicates_range_and_flags
    ⟨true, true, true, true, true, 0, false, false⟩
    ⟨false, false, .CUSTOM, 0, 0, 0, 0, false, 1, 100,
      false, false, false, false, false, false⟩
    "J" ["d0"] [(1, 10)] 1 10 1 2 0).1

theorem filterMap_flatMap_triple {α : Type} (f : ScriptLine → Option α)
    (w : Bool) (l : List Nat)
    (h1 : ∀ x, f (ScriptLine.setFrame x) = none)
    (h2 : f ScriptLine.setFilepath = none)
    (h3 : f (ScriptLine.renderStill w) = none) :
    (l.flatMap fun x => [ScriptLine.setFrame x, ScriptLine.setFilepath,
      ScriptLine.renderStill w]).filterMap f = [] := by
  induction l with
  | nil => rfl
  | cons a l ih =>
      simp [List.flatMap_cons, List.filterMap_append, h1, h2, h3, ih]

theorem markerLines_append (s t : List ScriptLine) :
    markerLines (s ++ t) = markerLines s ++ markerLines t := by
  simp [markerLines]

theorem waitLines_append (s t : List ScriptLine) :
    waitLines (s ++ t) = waitLines s ++ waitLines t := by
  simp [waitLines]

/-- The stem of a sequence-parallel worker script contains no marker
creation, no barrier wait and no shutdown command. -/
theorem seqWorkerStem_syncFree (p : SyncPrefs) (o : OverrideSettings)
    (alloc : FrameAllocation) (ids : List String)
    (ranges : List (Nat × Nat)) (fs fe st i : Nat) :
    markerLines (seqWorkerStem p o alloc ids ranges fs fe st i) = [] ∧
    waitLines (seqWorkerStem p o alloc ids ranges fs fe st i) = [] ∧
    ScriptLine.shutdownBlock ∉ seqWorkerStem p o alloc ids ranges fs fe st i := by
  refine ⟨?_, ?_, ?_⟩ <;> cases alloc <;>
    simp [seqWorkerStem, generateBaseScript, applyResolutionSettings,
      markerLines, waitLines, List.filterMap_append,
      apply_ite (List.filterMap _)] <;>
    (intro _; split <;> simp)

/-- The stem of a frame-list worker script contains no marker creation, no
barrier wait and no shutdown command. -/
theorem frameListWorkerStem_syncFree (p : SyncPrefs) (o : OverrideSettings)
    (ids : List String) (devFrames : List Nat) (i : Nat) :
    markerLines (frameListWorkerStem p o ids devFrames i) = [] ∧
    waitLines (frameListWorkerStem p o ids devFrames i) = [] ∧
    ScriptLine.shutdownBlock ∉ frameListWorkerStem p o ids devFrames i := by
  refine ⟨?_, ?_, ?_⟩ <;>
    simp [frameListWorkerStem, generateBaseScript, applyResolutionSettings,
      markerLines, waitLines, List.filterMap_append,
      apply_ite (List.filterMap _),
      filterMap_flatMap_triple, List.mem_flatMap]
  intro _
  split <;> simp

/-- What `syncTail` amounts to when synchronization is required. -/
theorem syncTail_eq (p : SyncPrefs) (rid : String) (n i : Nat)
    (hs : syncRequired p = true) :
    syncTail p rid n i =
      ScriptLine.createMarker (markerName rid i) ::
        (if i = 0 then
            ScriptLine.waitForAllMarkers rid n 2 ::
              (if p.set_system_power && p.shutdown_after_render
                then [ScriptLine.shutdownBlock] else [])
          else []) := by
  simp [syncTail, hs]

/-- **C7**: whenever synchronization is required (shutdown,
sleep-prevention or desktop notification configured), every worker's
script — in both parallel modes — creates exactly one completion marker,
named `{job_id}_process_{i}` for its own index, and does so before any
barrier wait and before any shutdown command; only worker 0's script
contains the barrier, which polls for all `numWorkers` marker files every
2 seconds; the generated barrier check passes exactly when all markers
exist, the cleanup removes every marker, and worker 0's shutdown command
(when configured) sits directly after the barrier wait. -/
theorem c7_completion_barrier_protocol :
    (∀ (p : SyncPrefs) (o : OverrideSettings) (alloc : FrameAllocation)
        (rid : String) (ids : List String) (ranges : List (Nat × Nat))
        (fs fe st n i : Nat), syncRequired p = true →
      markerLines (seqWorkerScript p o alloc rid ids ranges fs fe st n i) =
          [markerName rid i] ∧
      waitLines (seqWorkerScript p o alloc rid ids ranges fs fe st n i) =
          (if i = 0 then [(rid, n, 2)] else []) ∧
      (∃ pre post,
        seqWorkerScript p o alloc rid ids ranges fs fe st n i =
          pre ++ ScriptLine.createMarker (markerName rid i) :: post ∧
        waitLines pre = [] ∧ ScriptLine.shutdownBlock ∉ pre) ∧
      ((p.set_system_power && p.shutdown_after_render) = true →
        ∃ pre post,
          seqWorkerScript p o alloc rid ids ranges fs fe st n 0 =
            pre ++ [ScriptLine.createMarker (markerName rid 0),
              ScriptLine.waitForAllMarkers rid n 2,
              ScriptLine.shutdownBlock] ++ post ∧
          ScriptLine.shutdownBlock ∉ pre)) ∧
    (∀ (p : SyncPrefs) (o : OverrideSettings) (rid : String)
        (ids : List String) (devFrames : List Nat) (n i : Nat),
        syncRequired p = true →
      markerLines (frameListWorkerScript p o rid ids devFrames n i) =
          [markerName rid i] ∧
      waitLines (frameListWorkerScript p o rid ids devFrames n i) =
          (if i = 0 then [(rid, n, 2)] else []) ∧
      (∃ pre post,
        frameListWorkerScript p o rid ids devFrames n i =
          pre ++ ScriptLine.createMarker (markerName rid i) :: post ∧
        waitLines pre = [] ∧ ScriptLine.shutdownBlock ∉ pre)) ∧
    (∀ (present : String → Bool) (rid : String) (n : Nat),
      checkAllDone present rid n = true ↔
        ∀ i, i < n → present (markerName rid i) = true) ∧
    (∀ (present : String → Bool) (rid : String) (n i : Nat), i < n →
      deleteMarkers present rid n (markerName rid i) = false) := by
  refine ⟨?_, ?_, ?_, ?_⟩
  · intro p o alloc rid ids ranges fs fe st n i hs
    obtain ⟨hm, hw, hsd⟩ := seqWorkerStem_syncFree p o alloc ids ranges fs fe st i
    refine ⟨?_, ?_, ?_, ?_⟩
    · rw [seqWorkerScript, markerLines_append, markerLines_append, hm,
        syncTail_eq p rid n i hs]
      by_cases h0 : i = 0 <;>
        simp [h0, markerLines, apply_ite (List.filterMap _)]
    · rw [seqWorkerScript, waitLines_append, waitLines_append, hw,
        syncTail_eq p rid n i hs]
      by_cases h0 : i = 0 <;>
        simp [h0, waitLines, apply_ite (List.filterMap _)]
    · refine ⟨seqWorkerStem p o alloc ids ranges fs fe st i,
        (if i = 0 then
            ScriptLine.waitForAllMarkers rid n 2 ::
              (if p.set_system_power && p.shutdown_after_render
                then [ScriptLine.shutdownBlock] else [])
          else []) ++ [ScriptLine.removeTempScript], ?_, hw, hsd⟩
      rw [seqWorkerScript, syncTail_eq p rid n i hs]
      simp
    · intro hsh
      obtain ⟨hm0, hw0, hsd0⟩ :=
        seqWorkerStem_syncFree p o alloc ids ranges fs fe st 0
      refine ⟨seqWorkerStem p o alloc ids ranges fs fe st 0,
        [ScriptLine.removeTempScript], ?_, hsd0⟩
      rw [seqWorkerScript, syncTail_eq p rid n 0 hs]
      obtain ⟨h1, h2⟩ : p.set_system_power = true ∧ p.shutdown_after_render = true := by
        simpa using hsh
      simp [h1, h2]
  · intro p o rid ids devFrames n i hs
    obtain ⟨hm, hw, hsd⟩ := frameListWorkerStem_syncFree p o ids devFrames i
    refine ⟨?_, ?_, ?_⟩
    · rw [frameListWorkerScript, markerLines_append, markerLines_append, hm,
        syncTail_eq p rid n i hs]
      by_cases h0 : i = 0 <;>
        simp [h0, markerLines, apply_ite (List.filterMap _)]
    · rw [frameListWorkerScript, waitLines_append, waitLines_append, hw,
        syncTail_eq p rid n i hs]
      by_cases h0 : i = 0 <;>
        simp [h0, waitLines, apply_ite (List.filterMap _)]
    · refine ⟨frameListWorkerStem p o ids devFrames i,
        (if i = 0 then
            ScriptLine.waitForAllMarkers rid n 2 ::
              (if p.set_system_power && p.shutdown_after_render
                then [ScriptLine.shutdownBlock] else [])
          else []) ++ [ScriptLine.removeTempScript], ?_, hw, hsd⟩
      rw [frameListWorkerScript, syncTail_eq p rid n i hs]
      simp
  · intro present rid n
    simp [checkAllDone, List.all_eq_true, List.mem_range]
  · intro present rid n i hi
    unfold deleteMarkers
    rw [if_pos]
    refine List.any_eq_true.mpr ⟨i, ?_, ?_⟩ <;> simp [hi]

theorem c7_completion_barrier_protocol_witness :
    markerLines
        (seqWorkerScript
          ⟨true, true, true, true, true, 0, false, false⟩
          ⟨false, false, .CUSTOM, 0, 0, 0, 0, false, 1, 100,
            false, false, false, false, false, false⟩
          .FRAME_SPLIT "J" ["d0"] [(1, 10)] 1 10 1 2 0) =
      [markerName "J" 0] :=
  (c7_completion_barrier_protocol.1
    ⟨true, true, true, true, true, 0, false, false⟩
    ⟨false, false, .CUSTOM, 0, 0, 0, 0, false, 1, 100,
      false, false, false, false, false, false⟩
    .FRAME_SPLIT "J" ["d0"] [(1, 10)] 1 10 1 2 0 (by decide)).1

/-- **C8** [failing run]: with a CUDA backend configured and every device
deselected, `_execute_cycles_render` enters the empty-selection fallback:
the preferences are mutated (backend set to `NONE`, the CPU device
enabled and a warning reported), but the caller never refreshes its
`selected_devices` list, so the `selected_ids` passed into script
generation stay empty — and the generated script's
`device.use = device.id in selected_ids` line then disables every
device.  The render does not proceed with the CPU device, contrary to
the claim. -/
theorem c8_cpu_fallback_leaves_selection_empty :
    (executeCyclesDeviceSelection c8Prefs).1 = [] ∧
    (executeCyclesDeviceSelection c8Prefs).2.compute_device_type = "NONE" ∧
    ((executeCyclesDeviceSelection c8Prefs).2.devices.filter
        fun d => d.use) = [⟨"cpu0", "CPU", true⟩] ∧
    ((applyDeviceSelection (executeCyclesDeviceSelection c8Prefs).1
        (executeCyclesDeviceSelection c8Prefs).2.devices).filter
        fun d => d.use) = [] := by
  decide

theorem pyRound_dist (x : ℚ) : |(pyRound x : ℚ) - x| ≤ 1 / 2 := by
  have h0 : (⌊x⌋ : ℚ) ≤ x := Int.floor_le x
  have h1 : x < ⌊x⌋ + 1 := Int.lt_floor_add_one x
  unfold pyRound
  by_cases hr : x - ⌊x⌋ < 1 / 2
  · rw [if_pos hr, abs_sub_comm, abs_of_nonneg (by linarith)]
    linarith
  · rw [if_neg hr]
    by_cases hr2 : 1 / 2 < x - ⌊x⌋
    · rw [if_pos hr2]
      push_cast
      rw [abs_of_nonneg (by linarith)]
      linarith
    · rw [if_neg hr2]
      by_cases hpar : ⌊x⌋ % 2 = 0
      · rw [if_pos hpar, abs_sub_comm, abs_of_nonneg (by linarith)]
        linarith
      · rw [if_neg hpar]
        push_cast
        rw [abs_of_nonneg (by linarith)]
        linarith

theorem pyRound_nearest (x : ℚ) (k : Int) :
    |(pyRound x : ℚ) - x| ≤ |(k : ℚ) - x| := by
  by_cases hk : k = pyRound x
  · rw [hk]
  · have h1 := pyRound_dist x
    have h2 : (1 : ℚ) ≤ |(k : ℚ) - (pyRound x : ℚ)| := by
      have hne : k - pyRound x ≠ 0 := sub_ne_zero.mpr hk
      have := Int.one_le_abs hne
      calc (1 : ℚ) = ((1 : Int) : ℚ) := by norm_num
        _ ≤ ((|k - pyRound x| : Int) : ℚ) := by exact_mod_cast this
        _ = |(k : ℚ) - (pyRound x : ℚ)| := by push_cast; rfl
    have h3 : |(k : ℚ) - (pyRound x : ℚ)| ≤
        |(k : ℚ) - x| + |x - (pyRound x : ℚ)| := abs_sub_le _ _ _
    have h4 : |x - (pyRound x : ℚ)| = |(pyRound x : ℚ) - x| := abs_sub_comm _ _
    linarith

/-- **C9**: in the generated script the override resolution is always
emitted as `round(base * scale / 2) * 2` for both axes, which is an even
integer and, among all even integers, one nearest to `base * scale`. -/
theorem c9_resolution_rounds_to_nearest_even :
    (∀ o : OverrideSettings, o.format_override = true →
      o.resolution_override = true →
      applyResolutionSettings o =
        ScriptLine.setResolution (scaledRes (baseResX o) (effScale o))
            (scaledRes (baseResY o) (effScale o)) ::
          ScriptLine.setResolutionPercentage 100 ::
          ((if o.camera_shift_override && o.camera_shift_nonzero
              then [ScriptLine.other] else []) ++
            (if o.use_overscan then [ScriptLine.other] else []))) ∧
    (∀ (base : Nat) (scale : ℚ),
      scaledRes base scale = pyRound (base * scale / 2) * 2 ∧
      (2 : Int) ∣ scaledRes base scale ∧
      ∀ m : Int, (2 : Int) ∣ m →
        |(scaledRes base scale : ℚ) - base * scale| ≤
          |(m : ℚ) - base * scale|) := by
  constructor
  · intro o h1 h2
    simp [applyResolutionSettings, h1, h2]
  · intro base scale
    refine ⟨rfl, ⟨pyRound (base * scale / 2), by rw [scaledRes]; ring⟩, ?_⟩
    intro m hm
    obtain ⟨k, hk⟩ := hm
    subst hk
    have h := pyRound_nearest (base * scale / 2) k
    have e1 : (scaledRes base scale : ℚ) - base * scale =
        2 * ((pyRound (base * scale / 2) : ℚ) - base * scale / 2) := by
      rw [scaledRes]
      push_cast
      ring
    have e2 : ((2 * k : Int) : ℚ) - base * scale =
        2 * ((k : ℚ) - base * scale / 2) := by
      push_cast
      ring
    rw [e1, e2, abs_mul, abs_mul]
    have habs : |(2 : ℚ)| = 2 := by norm_num
    rw [habs]
    linarith

theorem c9_resolution_rounds_to_nearest_even_witness :
    |(scaledRes 4 1 : ℚ) - (4 : Nat) * (1 : ℚ)| ≤ |((6 : Int) : ℚ) - (4 : Nat) * (1 : ℚ)| :=
  ((c9_resolution_rounds_to_nearest_even.2 4 1).2.2) 6 (by norm_num)

theorem digitsVal_nil (v : Nat) : digitsVal v [] = v := rfl

theorem digitsVal_cons (v : Nat) (c : Char) (ds : List Char) :
    digitsVal v (c :: ds) = digitsVal (v * 10 + (c.toNat - 48)) ds := rfl

theorem digitChar_isDigit {d : Nat} (hd : d < 10) :
    (digitChar d).isDigit = true := by
  interval_cases d <;> decide

theorem digitChar_val {d : Nat} (hd : d < 10) :
    (digitChar d).toNat - 48 = d := by
  interval_cases d <;> decide

theorem natToDigitsAux_all_digits :
    ∀ (fuel n : Nat) (acc : List Char), (∀ c ∈ acc, c.isDigit = true) →
      ∀ c ∈ natToDigitsAux fuel n acc, c.isDigit = true := by
  intro fuel
  induction fuel with
  | zero =>
      intro n acc hacc c hc
      rw [natToDigitsAux] at hc
      rcases List.mem_cons.mp hc with hc | hc
      · subst hc; exact digitChar_isDigit (Nat.mod_lt _ (by omega))
      · exact hacc c hc
  | succ fuel ih =>
      intro n acc hacc c hc
      rw [natToDigitsAux] at hc
      by_cases hn : n < 10
      · rw [if_pos hn] at hc
        rcases List.mem_cons.mp hc with hc | hc
        · subst hc; exact digitChar_isDigit hn
        · exact hacc c hc
      · rw [if_neg hn] at hc
        refine ih (n / 10) _ ?_ c hc
        intro c' hc'
        rcases List.mem_cons.mp hc' with hc' | hc'
        · subst hc'; exact digitChar_isDigit (Nat.mod_lt _ (by omega))
        · exact hacc c' hc'

theorem natToDigits_all_digits (n : Nat) :
    ∀ c ∈ natToDigits n, c.isDigit = true :=
  natToDigitsAux_all_digits n n [] (by intro c hc; cases hc)

theorem natToDigitsAux_ne_nil :
    ∀ (fuel n : Nat) (acc : List Char), natToDigitsAux fuel n acc ≠ [] := by
  intro fuel
  induction fuel with
  | zero => intro n acc; rw [natToDigitsAux]; exact List.cons_ne_nil _ _
  | succ fuel ih =>
      intro n acc
      rw [natToDigitsAux]
      by_cases hn : n < 10
      · rw [if_pos hn]; exact List.cons_ne_nil _ _
      · rw [if_neg hn]; exact ih _ _

theorem natToDigits_ne_nil (n : Nat) : natToDigits n ≠ [] :=
  natToDigitsAux_ne_nil n n []

theorem digitsVal_natToDigitsAux :
    ∀ (fuel n : Nat) (acc : List Char), n ≤ fuel →
      digitsVal 0 (natToDigitsAux fuel n acc) = digitsVal n acc := by
  intro fuel
  induction fuel with
  | zero =>
      intro n acc hn
      have h0 : n = 0 := by omega
      subst h0
      rw [natToDigitsAux, digitsVal_cons, digitChar_val (by omega)]
  | succ fuel ih =>
      intro n acc hn
      rw [natToDigitsAux]
      by_cases h10 : n < 10
      · rw [if_pos h10, digitsVal_cons, digitChar_val h10, Nat.zero_mul,
          Nat.zero_add]
      · rw [if_neg h10,
          ih (n / 10) _ (by omega), digitsVal_cons,
          digitChar_val (Nat.mod_lt _ (by omega))]
        have hdm : n / 10 * 10 + n % 10 = n := by omega
        rw [hdm]

theorem digitsVal_natToDigits (n : Nat) :
    digitsVal 0 (natToDigits n) = n :=
  digitsVal_natToDigitsAux n n [] le_rfl

theorem scan_digits_num (ds : List Char) :
    ∀ (v : Nat) (rest : List Char), (∀ c ∈ ds, c.isDigit = true) →
      scanAux (ScanState.num v) (ds ++ rest) =
        scanAux (ScanState.num (digitsVal v ds)) rest := by
  induction ds with
  | nil => intro v rest _; rw [digitsVal_nil]; rfl
  | cons c ds ih =>
      intro v rest hds
      have hc : c.isDigit = true := hds c (List.mem_cons_self c ds)
      rw [List.cons_append, scanAux, if_pos hc, digitsVal_cons]
      exact ih _ rest fun c' hc' => hds c' (List.mem_cons_of_mem c hc')

theorem scan_digits_num2 (ds : List Char) :
    ∀ (a v : Nat) (rest : List Char), (∀ c ∈ ds, c.isDigit = true) →
      scanAux (ScanState.num2 a v) (ds ++ rest) =
        scanAux (ScanState.num2 a (digitsVal v ds)) rest := by
  induction ds with
  | nil => intro a v rest _; rw [digitsVal_nil]; rfl
  | cons c ds ih =>
      intro a v rest hds
      have hc : c.isDigit = true := hds c (List.mem_cons_self c ds)
      rw [List.cons_append, scanAux, if_pos hc, digitsVal_cons]
      · exact ih _ _ rest fun c' hc' => hds c' (List.mem_cons_of_mem c hc')
      · exact fun _ h => ScanState.noConfusion h

/-- Reading a rendered number from the idle state. -/
theorem scan_natToDigits (a : Nat) (rest : List Char) :
    scanAux ScanState.idle (natToDigits a ++ rest) =
      scanAux (ScanState.num a) rest := by
  obtain ⟨c, ds, hds⟩ : ∃ c ds, natToDigits a = c :: ds := by
    cases h : natToDigits a with
    | nil => exact absurd h (natToDigits_ne_nil a)
    | cons c ds => exact ⟨c, ds, rfl⟩
  have hall := natToDigits_all_digits a
  rw [hds] at hall ⊢
  have hc : c.isDigit = true := hall c (List.mem_cons_self c ds)
  rw [List.cons_append, scanAux, if_pos hc]
  have := scan_digits_num ds (c.toNat - 48) rest
    fun c' hc' => hall c' (List.mem_cons_of_mem c hc')
  rw [show feedDigit ScanState.idle (c.toNat - 48) =
      ScanState.num (c.toNat - 48) from rfl, this]
  have hval : digitsVal (c.toNat - 48) ds = a := by
    have := digitsVal_natToDigits a
    rw [hds, digitsVal_cons] at this
    simpa using this
  rw [hval]
  all_goals exact fun _ h => ScanState.noConfusion h

/-- Reading a rendered number right after the `-` of a range token. -/
theorem scan_natToDigits_dash (a b : Nat) (rest : List Char) :
    scanAux (ScanState.dash a) (natToDigits b ++ rest) =
      scanAux (ScanState.num2 a b) rest := by
  obtain ⟨c, ds, hds⟩ : ∃ c ds, natToDigits b = c :: ds := by
    cases h : natToDigits b with
    | nil => exact absurd h (natToDigits_ne_nil b)
    | cons c ds => exact ⟨c, ds, rfl⟩
  have hall := natToDigits_all_digits b
  rw [hds] at hall ⊢
  have hc : c.isDigit = true := hall c (List.mem_cons_self c ds)
  rw [List.cons_append, scanAux, if_pos hc]
  have := scan_digits_num2 ds a (c.toNat - 48) rest
    fun c' hc' => hall c' (List.mem_cons_of_mem c hc')
  rw [show feedDigit (ScanState.dash a) (c.toNat - 48) =
      ScanState.num2 a (c.toNat - 48) from rfl, this]
  have hval : digitsVal (c.toNat - 48) ds = b := by
    have := digitsVal_natToDigits b
    rw [hds, digitsVal_cons] at this
    simpa using this
  rw [hval]
  all_goals exact fun _ h => ScanState.noConfusion h

theorem scan_skip (c : Char) (cs : List Char) (h1 : c.isDigit = false)
    (h2 : c ≠ '-') :
    scanAux ScanState.idle (c :: cs) = scanAux ScanState.idle cs := by
  rw [scanAux, if_neg (by simp [h1]), if_neg h2]
  all_goals first
    | rfl
    | exact fun _ h => ScanState.noConfusion h

theorem scan_dash_idle (cs : List Char) :
    scanAux ScanState.idle ('-' :: cs) = scanAux ScanState.idle cs := by
  rw [scanAux, if_neg (by decide), if_pos rfl]
  all_goals first
    | rfl
    | exact fun _ h => ScanState.noConfusion h

theorem scan_dash_num (a : Nat) (cs : List Char) :
    scanAux (ScanState.num a) ('-' :: cs) = scanAux (ScanState.dash a) cs := by
  rw [scanAux, if_neg (by decide), if_pos rfl]

theorem scan_close_num (a : Nat) (rest : List Char) :
    scanAux (ScanState.num a) (']' :: rest) =
      (a, none) :: scanAux ScanState.idle rest := by
  rw [scanAux, if_neg (by decide), if_neg (by decide)]
  rfl

theorem scan_close_num2 (a b : Nat) (rest : List Char) :
    scanAux (ScanState.num2 a b) (']' :: rest) =
      (a, some b) :: scanAux ScanState.idle rest := by
  rw [scanAux, if_neg (by decide), if_neg (by decide)]
  all_goals first
    | rfl
    | exact fun _ h => ScanState.noConfusion h

theorem scan_comma_num (a : Nat) (rest : List Char) :
    scanAux (ScanState.num a) (',' :: ' ' :: rest) =
      (a, none) :: scanAux ScanState.idle rest := by
  rw [scanAux, if_neg (by decide), if_neg (by decide)]
  rw [show flushToken (ScanState.num a) = [(a, none)] from rfl]
  rw [scan_skip ' ' rest (by decide) (by decide)]
  rfl

theorem scan_comma_num2 (a b : Nat) (rest : List Char) :
    scanAux (ScanState.num2 a b) (',' :: ' ' :: rest) =
      (a, some b) :: scanAux ScanState.idle rest := by
  rw [scanAux, if_neg (by decide), if_neg (by decide)]
  · rw [show flushToken (ScanState.num2 a b) = [(a, some b)] from rfl]
    rw [scan_skip ' ' rest (by decide) (by decide)]
    rfl
  · exact fun _ h => ScanState.noConfusion h

/-- Reading one formatted run followed by the closing bracket. -/
theorem scan_fmt_close (pr : Nat × Nat) (rest : List Char) :
    scanAux ScanState.idle (fmtRange pr ++ ']' :: rest) =
      toToken pr :: scanAux ScanState.idle rest := by
  obtain ⟨a, b⟩ := pr
  by_cases hab : a = b
  · rw [fmtRange, if_pos hab, toToken, if_pos hab,
      scan_natToDigits, scan_close_num]
  · rw [fmtRange, if_neg hab, toToken, if_neg hab, List.append_assoc,
      List.cons_append, scan_natToDigits, scan_dash_num,
      scan_natToDigits_dash, scan_close_num2]

/-- Reading one formatted run followed by the `", "` separator. -/
theorem scan_fmt_comma (pr : Nat × Nat) (rest : List Char) :
    scanAux ScanState.idle (fmtRange pr ++ ',' :: ' ' :: rest) =
      toToken pr :: scanAux ScanState.idle rest := by
  obtain ⟨a, b⟩ := pr
  by_cases hab : a = b
  · rw [fmtRange, if_pos hab, toToken, if_pos hab,
      scan_natToDigits, scan_comma_num]
  · rw [fmtRange, if_neg hab, toToken, if_neg hab, List.append_assoc,
      List.cons_append, scan_natToDigits, scan_dash_num,
      scan_natToDigits_dash, scan_comma_num2]

/-- Scanning the joined formatted runs (with the closing bracket) yields
exactly one token per run. -/
theorem scan_join :
    ∀ rs : List (Nat × Nat),
      scanAux ScanState.idle (joinComma (rs.map fmtRange) ++ [']']) =
        rs.map toToken := by
  intro rs
  induction rs with
  | nil => rfl
  | cons r rs ih =>
      cases rs with
      | nil =>
          have hj : joinComma [fmtRange r] = fmtRange r := rfl
          rw [List.map_cons, List.map_nil, hj, List.map_cons, List.map_nil]
          exact scan_fmt_close r []
      | cons r2 t =>
          have hj : joinComma (fmtRange r :: fmtRange r2 :: t.map fmtRange) =
              fmtRange r ++ ',' :: ' ' :: joinComma (fmtRange r2 :: t.map fmtRange) := rfl
          rw [List.map_cons (f := fmtRange), List.map_cons (f := fmtRange), hj,
            List.append_assoc, List.cons_append, List.cons_append,
            scan_fmt_comma, List.map_cons (f := toToken)]
          rw [List.map_cons (f := fmtRange)] at ih
          rw [ih]

theorem expandToken_toToken (p : Nat × Nat) :
    expandToken (toToken p) = List.range' p.1 (p.2 + 1 - p.1) := by
  obtain ⟨a, b⟩ := p
  by_cases hab : a = b
  · subst hab
    rw [toToken, if_pos rfl, expandToken]
    rw [show a + 1 - a = 1 by omega]
    rfl
  · rw [toToken, if_neg hab, expandToken]

/-- Expanding the grouped runs back into frames recovers the input list
(the ranges are consecutive runs by construction). -/
theorem groupRangesAux_expand :
    ∀ (rest : List Nat) (start e : Nat), start ≤ e →
      (groupRangesAux start e rest).flatMap
          (fun p => List.range' p.1 (p.2 + 1 - p.1)) =
        List.range' start (e + 1 - start) ++ rest := by
  intro rest
  induction rest with
  | nil =>
      intro start e h
      rw [groupRangesAux]
      simp
  | cons n rest ih =>
      intro start e h
      rw [groupRangesAux]
      by_cases hn : n = e + 1
      · rw [if_pos hn, ih start n (by omega)]
        subst hn
        have h1 : e + 1 + 1 - start = (e + 1 - start) + 1 := by omega
        rw [h1, List.range'_concat]
        have h2 : start + 1 * (e + 1 - start) = e + 1 := by omega
        rw [h2, List.append_assoc]
        rfl
      · rw [if_neg hn, List.flatMap_cons, ih n n le_rfl]
        rw [show n + 1 - n = 1 by omega]
        rfl

theorem groupRanges_expand (l : List Nat) :
    (groupRanges l).flatMap (fun p => List.range' p.1 (p.2 + 1 - p.1)) = l := by
  cases l with
  | nil => rfl
  | cons x xs =>
      rw [groupRanges, groupRangesAux_expand xs x x le_rfl]
      rw [show x + 1 - x = 1 by omega]
      rfl

theorem pySortedSet_sorted (l : List Nat) :
    List.Sorted (· ≤ ·) (pySortedSet l) :=
  List.sorted_insertionSort _ _

theorem pySortedSet_nodup (l : List Nat) : (pySortedSet l).Nodup :=
  (List.perm_insertionSort _ _).nodup_iff.mpr (List.nodup_dedup l)

theorem pySortedSet_idem (l : List Nat) :
    pySortedSet (pySortedSet l) = pySortedSet l := by
  show ((pySortedSet l).dedup).insertionSort (· ≤ ·) = pySortedSet l
  rw [List.dedup_eq_self.mpr (pySortedSet_nodup l)]
  exact (pySortedSet_sorted l).insertionSort_eq

/-- Round trip: parsing the compact formatting of any frame list gives
back `sorted(set(L))`. -/
theorem parse_format_frame_range (L : List Nat) :
    parse_frame_string (format_frame_range L) = pySortedSet L := by
  by_cases hL : L = []
  · subst hL
    rfl
  · rw [format_frame_range, if_neg hL, parse_frame_string,
      List.cons_append, scan_skip '[' _ (by decide) (by decide), scan_join]
    have hmap : ∀ rs : List (Nat × Nat),
        (rs.map toToken).flatMap expandToken =
          rs.flatMap fun p => List.range' p.1 (p.2 + 1 - p.1) := by
      intro rs
      induction rs with
      | nil => rfl
      | cons r t ih =>
          rw [List.map_cons, List.flatMap_cons, List.flatMap_cons, ih,
            expandToken_toToken]
    rw [hmap, groupRanges_expand, pySortedSet_idem]

/-- **C10**: `parse_frame_string` always returns a sorted, duplicate-free
list of naturals (e.g. `"1, 2, 5-8"` gives `[1,2,5,6,7,8]`), and for
every list of positive integers `L`,
`parse_frame_string(format_frame_range(L))` equals `sorted(set(L))` —
the compact formatting round-trips through the parser. -/
theorem c10_parse_sorted_and_roundtrip :
    (∀ s : List Char, List.Sorted (· ≤ ·) (parse_frame_string s) ∧
      (parse_frame_string s).Nodup) ∧
    parse_frame_string ("1, 2, 5-8".toList) = [1, 2, 5, 6, 7, 8] ∧
    (∀ L : List Nat, (∀ x ∈ L, 0 < x) →
      parse_frame_string (format_frame_range L) = pySortedSet L) := by
  refine ⟨fun s => ⟨pySortedSet_sorted _, pySortedSet_nodup _⟩, ?_,
    fun L _ => parse_format_frame_range L⟩
  decide

theorem c10_parse_sorted_and_roundtrip_witness :
    parse_frame_string (format_frame_range [7, 3, 3, 12, 13]) =
      pySortedSet [7, 3, 3, 12, 13] :=
  c10_parse_sorted_and_roundtrip.2.2 [7, 3, 3, 12, 13] (by decide)

end RenderCommander
